import Mathlib

/-!
A shallow embedding of `src/server.js` (AI slideshow generator backend) and
proofs about it.

Modelling conventions:
* JavaScript strings manipulated character-wise are modelled as `List Char`
  (`JStr`); JavaScript `trim` / `startsWith` / `endsWith` / `slice` become the
  corresponding list operations.  Configuration strings that are only compared
  or stored are plain `String`.
* Fallible code returns `Except String`; a thrown `Error(msg)` is `.error msg`.
* The network is an explicit parameter: the embedding of a function that
  performs an HTTP request receives the outcome of that request
  (`UpstreamOutcome`) as an argument, and returns the request it would have
  sent so that "no upstream call is made" is expressible.
* The mutable module-level `apiStatus` object is threaded explicitly: functions
  take the status before the call and return the status after it.
-/

deriving instance DecidableEq for Except

namespace Slides

/-- JavaScript strings, modelled as lists of characters. -/
abbrev JStr := List Char

/-- Removal of leading whitespace, the left half of JavaScript `String.trim`. -/
def trimLeft (s : JStr) : JStr := s.dropWhile Char.isWhitespace

/-- Removal of trailing whitespace, the right half of JavaScript `String.trim`. -/
def trimRight (s : JStr) : JStr := (s.reverse.dropWhile Char.isWhitespace).reverse

/-- JavaScript `String.trim`: drop leading and trailing whitespace. -/
def jsTrim (s : JStr) : JStr := trimRight (trimLeft s)

/-- The three-backtick fence marker. -/
def fence3 : JStr := "```".toList

/-- The fence marker with a `json` language tag. -/
def fenceJson : JStr := "```json".toList

/-- The four characters of the `json` language tag. -/
def jsonTag : JStr := "json".toList

/-- The opening-marker step of fence stripping: if the string starts with
"```json" drop 7 characters (`slice(7)`), else if it starts with "```" drop
3 (`slice(3)`), else leave it alone. -/
def stripOpen (t : JStr) : JStr :=
  if fenceJson.isPrefixOf t then t.drop 7
  else if fence3.isPrefixOf t then t.drop 3
  else t

/-- The closing-marker step of fence stripping: if the string ends with "```"
drop its last 3 characters (`slice(0, -3)`), else leave it alone. -/
def stripClose (t : JStr) : JStr :=
  if fence3.isSuffixOf t then t.take (t.length - 3) else t

/-- Markdown fence stripping as performed before `JSON.parse` in
`generatePresentationStructure` (server.js lines 202–213) and, identically, in
`enhancePresentation` (lines 241–246): trim, strip an opening marker, strip a
closing marker, trim again.  The remainder is what the code hands to
`JSON.parse`. -/
def stripFences (s : JStr) : JStr :=
  jsTrim (stripClose (stripOpen (jsTrim s)))

/-- A string made of whitespace only. -/
abbrev allWS (w : JStr) : Prop := ∀ c ∈ w, Char.isWhitespace c

/-- A (trimmed) string carrying none of the fence markers the code looks for. -/
abbrev noFence (u : JStr) : Prop :=
  fenceJson.isPrefixOf u = false ∧ fence3.isPrefixOf u = false ∧
    fence3.isSuffixOf u = false

/-! ### List lemmas for the trimming functions -/

theorem dropWhile_append_of_all {α : Type} (p : α → Bool) (w l : List α)
    (hw : ∀ c ∈ w, p c) : (w ++ l).dropWhile p = l.dropWhile p := by
  induction w with
  | nil => rfl
  | cons a as ih =>
      have ha : p a := hw a (by simp)
      simp only [List.cons_append, List.dropWhile_cons, ha, if_true]
      exact ih (fun c hc => hw c (by simp [hc]))

theorem dropWhile_eq_nil_of_all {α : Type} (p : α → Bool) (w : List α)
    (hw : ∀ c ∈ w, p c) : w.dropWhile p = [] := by
  have := dropWhile_append_of_all p w [] hw
  simpa using this

theorem dropWhile_dropWhile {α : Type} (p : α → Bool) (l : List α) :
    (l.dropWhile p).dropWhile p = l.dropWhile p := by
  induction l with
  | nil => rfl
  | cons a as ih =>
      by_cases h : p a
      · simp only [List.dropWhile_cons, h, if_true]
        exact ih
      · simp [List.dropWhile_cons, h]

theorem length_dropWhile_le {α : Type} (p : α → Bool) (l : List α) :
    (l.dropWhile p).length ≤ l.length := by
  induction l with
  | nil => simp
  | cons a as ih =>
      by_cases h : p a
      · simp only [List.dropWhile_cons, h, if_true]
        exact Nat.le_trans ih (by simp)
      · simp [List.dropWhile_cons, h]

theorem trimLeft_ws_append (w s : JStr) (hw : allWS w) :
    trimLeft (w ++ s) = trimLeft s :=
  dropWhile_append_of_all _ w s hw

theorem trimRight_append_ws (s w : JStr) (hw : allWS w) :
    trimRight (s ++ w) = trimRight s := by
  unfold trimRight
  rw [List.reverse_append, dropWhile_append_of_all _ w.reverse s.reverse
    (fun c hc => hw c (List.mem_reverse.mp hc))]

theorem trimLeft_append_of_ne (s t : JStr) (h : trimLeft s ≠ []) :
    trimLeft (s ++ t) = trimLeft s ++ t := by
  unfold trimLeft at *
  rw [List.dropWhile_append]
  simp only [List.isEmpty_iff]
  rw [if_neg h]

theorem trimRight_nil : trimRight [] = [] := rfl

theorem jsTrim_nil : jsTrim [] = [] := rfl

theorem jsTrim_ws_sandwich (w1 s w2 : JStr) (h1 : allWS w1) (h2 : allWS w2) :
    jsTrim (w1 ++ (s ++ w2)) = jsTrim s := by
  unfold jsTrim
  rw [trimLeft_ws_append w1 (s ++ w2) h1]
  by_cases h : trimLeft s = []
  · unfold trimLeft at *
    rw [List.dropWhile_append]
    simp only [List.isEmpty_iff, h, if_pos]
    rw [dropWhile_eq_nil_of_all _ w2 h2]
  · rw [trimLeft_append_of_ne s w2 h, trimRight_append_ws _ w2 h2]

theorem trimLeft_cons_of_neg (a : Char) (s : JStr) (h : ¬ Char.isWhitespace a) :
    trimLeft (a :: s) = a :: s := by
  simp [trimLeft, List.dropWhile_cons, h]

theorem trimLeft_of_isPrefixList (l m : JStr) (hp : l <+: m)
    (hm : trimLeft m = m) : trimLeft l = l := by
  obtain ⟨k, hk⟩ := hp
  cases l with
  | nil => rfl
  | cons a l' =>
      have ha : ¬ Char.isWhitespace a := by
        intro hwa
        have hlen : (trimLeft m).length < m.length := by
          subst hk
          simp only [trimLeft, List.cons_append, List.dropWhile_cons, hwa, if_true]
          have := length_dropWhile_le Char.isWhitespace (l' ++ k)
          simp only [List.length_cons]
          omega
        rw [hm] at hlen
        omega
      exact trimLeft_cons_of_neg a l' ha

theorem trimRight_isPrefixList (s : JStr) : trimRight s <+: s := by
  unfold trimRight
  have hsuf : s.reverse.dropWhile Char.isWhitespace <:+ s.reverse :=
    List.dropWhile_suffix _
  obtain ⟨k, hk⟩ := hsuf
  refine ⟨k.reverse, ?_⟩
  have := congrArg List.reverse hk
  simpa using this

theorem trimLeft_trimLeft (s : JStr) : trimLeft (trimLeft s) = trimLeft s :=
  dropWhile_dropWhile _ s

theorem trimRight_trimRight (s : JStr) : trimRight (trimRight s) = trimRight s := by
  unfold trimRight
  rw [List.reverse_reverse, dropWhile_dropWhile]

theorem trimLeft_trimRight (u : JStr) (hu : trimLeft u = u) :
    trimLeft (trimRight u) = trimRight u :=
  trimLeft_of_isPrefixList _ u (trimRight_isPrefixList u) hu

theorem jsTrim_idem (s : JStr) : jsTrim (jsTrim s) = jsTrim s := by
  unfold jsTrim
  rw [trimLeft_trimRight (trimLeft s) (trimLeft_trimLeft s), trimRight_trimRight]

/-! ### Prefix / suffix marker lemmas -/

theorem isPrefixOf_append_self (l r : JStr) : l.isPrefixOf (l ++ r) = true := by
  induction l with
  | nil => simp [List.isPrefixOf]
  | cons a as ih => simp [List.isPrefixOf, ih]

theorem isSuffixOf_append_self (l r : JStr) : l.isSuffixOf (r ++ l) = true := by
  unfold List.isSuffixOf
  rw [List.reverse_append]
  exact isPrefixOf_append_self l.reverse r.reverse

theorem isPrefixOf_append_cancel (a b c : JStr) :
    (a ++ b).isPrefixOf (a ++ c) = b.isPrefixOf c := by
  induction a with
  | nil => rfl
  | cons x xs ih => simp [List.isPrefixOf, ih]

theorem drop_length_append (l r : JStr) (n : Nat) (h : l.length = n) :
    (l ++ r).drop n = r := by
  subst h
  simp

theorem take_length_append (l r : JStr) (n : Nat) (h : (l ++ r).length - r.length = n) :
    (l ++ r).take n = l := by
  have : (l ++ r).length - r.length = l.length := by simp
  rw [h] at this
  subst this
  simp

theorem trimRight_append_fence3 (L : JStr) :
    trimRight (L ++ fence3) = L ++ fence3 := by
  unfold trimRight
  rw [List.reverse_append]
  have h2 : fence3.reverse = '`' :: "``".toList := by decide
  rw [h2, List.cons_append, List.dropWhile_cons, if_neg (by decide),
    ← List.cons_append, ← h2, ← List.reverse_append]
  simp

/-- The trimmed body of a fenced block is fixed by `jsTrim`: it starts and ends
with a backtick. -/
theorem jsTrim_fenced (opener body : JStr) (hop : ∃ rest, opener = '`' :: rest) :
    jsTrim (opener ++ (body ++ fence3)) = opener ++ (body ++ fence3) := by
  obtain ⟨rest, hrest⟩ := hop
  unfold jsTrim
  have h1 : trimLeft (opener ++ (body ++ fence3)) = opener ++ (body ++ fence3) := by
    rw [hrest]
    exact trimLeft_cons_of_neg '`' (rest ++ (body ++ fence3)) (by decide)
  rw [h1, ← List.append_assoc, trimRight_append_fence3, List.append_assoc]

/-! ### What `stripFences` computes on fenced input -/

theorem stripClose_fence3 (L : JStr) : stripClose (L ++ fence3) = L := by
  unfold stripClose
  rw [isSuffixOf_append_self fence3 L]
  simp only [if_true]
  exact take_length_append L fence3 _ (by simp [fence3])

/-- On a ```json-fenced block, `stripFences` recovers the trimmed inner body. -/
theorem stripFences_wrappedJson (w1 w2 t w3 w4 : JStr)
    (h1 : allWS w1) (h4 : allWS w4) :
    stripFences (w1 ++ (fenceJson ++ (w2 ++ (t ++ (w3 ++ (fence3 ++ w4)))))) =
      jsTrim (w2 ++ (t ++ w3)) := by
  unfold stripFences
  have htrim : jsTrim (w1 ++ (fenceJson ++ (w2 ++ (t ++ (w3 ++ (fence3 ++ w4)))))) =
      fenceJson ++ ((w2 ++ (t ++ w3)) ++ fence3) := by
    have hmid : w1 ++ (fenceJson ++ (w2 ++ (t ++ (w3 ++ (fence3 ++ w4))))) =
        w1 ++ ((fenceJson ++ (w2 ++ (t ++ (w3 ++ fence3)))) ++ w4) := by
      simp [List.append_assoc]
    have hassoc : fenceJson ++ (w2 ++ (t ++ (w3 ++ fence3))) =
        fenceJson ++ ((w2 ++ (t ++ w3)) ++ fence3) := by
      simp [List.append_assoc]
    rw [hmid, jsTrim_ws_sandwich w1 _ w4 h1 h4, hassoc,
      jsTrim_fenced fenceJson _ ⟨"``json".toList, by decide⟩]
  rw [htrim]
  have hopen : stripOpen (fenceJson ++ ((w2 ++ (t ++ w3)) ++ fence3)) =
      (w2 ++ (t ++ w3)) ++ fence3 := by
    unfold stripOpen
    rw [isPrefixOf_append_self fenceJson _]
    simp only [if_true]
    exact drop_length_append fenceJson _ 7 (by decide)
  rw [hopen, stripClose_fence3]

/-- On a plain ```-fenced block whose body does not begin with the `json` tag,
`stripFences` recovers the trimmed inner body. -/
theorem stripFences_wrappedPlain (w1 w2 t w3 w4 : JStr)
    (h1 : allWS w1) (h4 : allWS w4)
    (hj : jsonTag.isPrefixOf (w2 ++ (t ++ (w3 ++ fence3))) = false) :
    stripFences (w1 ++ (fence3 ++ (w2 ++ (t ++ (w3 ++ (fence3 ++ w4)))))) =
      jsTrim (w2 ++ (t ++ w3)) := by
  unfold stripFences
  have htrim : jsTrim (w1 ++ (fence3 ++ (w2 ++ (t ++ (w3 ++ (fence3 ++ w4)))))) =
      fence3 ++ ((w2 ++ (t ++ w3)) ++ fence3) := by
    have hmid : w1 ++ (fence3 ++ (w2 ++ (t ++ (w3 ++ (fence3 ++ w4))))) =
        w1 ++ ((fence3 ++ (w2 ++ (t ++ (w3 ++ fence3)))) ++ w4) := by
      simp [List.append_assoc]
    have hassoc : fence3 ++ (w2 ++ (t ++ (w3 ++ fence3))) =
        fence3 ++ ((w2 ++ (t ++ w3)) ++ fence3) := by
      simp [List.append_assoc]
    rw [hmid, jsTrim_ws_sandwich w1 _ w4 h1 h4, hassoc,
      jsTrim_fenced fence3 _ ⟨"``".toList, by decide⟩]
  rw [htrim]
  have hopen : stripOpen (fence3 ++ ((w2 ++ (t ++ w3)) ++ fence3)) =
      (w2 ++ (t ++ w3)) ++ fence3 := by
    unfold stripOpen
    have hnotjson : fenceJson.isPrefixOf (fence3 ++ ((w2 ++ (t ++ w3)) ++ fence3)) = false := by
      have hfj : fenceJson = fence3 ++ jsonTag := by decide
      rw [hfj, isPrefixOf_append_cancel fence3 jsonTag _]
      have harr : (w2 ++ (t ++ w3)) ++ fence3 = w2 ++ (t ++ (w3 ++ fence3)) := by
        simp [List.append_assoc]
      rw [harr]
      exact hj
    rw [hnotjson]
    simp only [Bool.false_eq_true, if_false]
    rw [isPrefixOf_append_self fence3 _]
    simp only [if_true]
    exact drop_length_append fence3 _ 3 (by decide)
  rw [hopen, stripClose_fence3]

/-- On input carrying no fence markers, `stripFences` only trims. -/
theorem stripFences_noFence (s : JStr) (h : noFence (jsTrim s)) :
    stripFences s = jsTrim s := by
  obtain ⟨hjf, hf, hs⟩ := h
  unfold stripFences stripOpen stripClose
  rw [hjf, hf]
  simp only [Bool.false_eq_true, if_false]
  rw [hs]
  simp only [Bool.false_eq_true, if_false]
  exact jsTrim_idem s

/-! ## The upstream client adapter (`callMegaLLM`, server.js lines 59–152) -/

/-- One chat message, `{ role, content }`. -/
structure ChatMessage where
  role : String
  content : String
deriving DecidableEq

/-- The configuration read once at startup (server.js lines 12–14).
`hostname` is the hostname component of `MEGALLM_API_URL`, i.e. what
`new URL(MEGALLM_API_URL).hostname` evaluates to (URL parsing itself is a
platform library and is not re-modelled). -/
structure Config where
  apiKey : String
  model : String
  hostname : String
deriving DecidableEq

/-- The module-level mutable `apiStatus` object (server.js lines 17–21).
Timestamps are abstract (`Nat`). -/
structure ApiStatus where
  configured : Bool
  lastCheck : Option Nat
  healthy : Bool
deriving DecidableEq

/-- The startup initialisation of `apiStatus` (server.js lines 17–21, 24–43):
`configured` is set to whether the key is non-empty; nothing else is touched. -/
def initialStatus (cfg : Config) : ApiStatus :=
  { configured := cfg.apiKey != "", lastCheck := none, healthy := false }

/-- The Anthropic-format request body (server.js lines 76–84). -/
structure AnthropicBody where
  model : String
  max_tokens : Nat
  system : String
  messages : List ChatMessage
deriving DecidableEq

/-- The OpenAI-compatible request body (server.js lines 93–98). -/
structure OpenAIBody where
  model : String
  messages : List ChatMessage
  max_tokens : Nat
  temperature : Rat
deriving DecidableEq

/-- A constructed request body, one of the two wire formats. -/
inductive RequestBody where
  | anthropic (b : AnthropicBody)
  | openai (b : OpenAIBody)
deriving DecidableEq

/-- Whether a body is in the Anthropic format (the branch taken). -/
def RequestBody.isAnthropic : RequestBody → Bool
  | .anthropic _ => true
  | .openai _ => false

/-- HTTP headers as an association list in construction order. -/
abbrev Headers := List (String × String)

/-- Whether `apiUrl.hostname` equals the designated Anthropic host (server.js line 67). -/
def isAnthropicHost (cfg : Config) : Bool :=
  cfg.hostname == "api.anthropic.com"

/-- Construction of the request body and headers (server.js lines 65–104). -/
def buildRequest (cfg : Config) (messages : List ChatMessage) (maxTokens : Nat) :
    RequestBody × Headers :=
  if isAnthropicHost cfg then
    let systemMsg := messages.find? (fun m => m.role == "system")
    let userMsgs := messages.filter (fun m => m.role != "system")
    (RequestBody.anthropic
      { model := cfg.model
        max_tokens := maxTokens
        system := (systemMsg.map ChatMessage.content).getD ""
        messages := userMsgs.map (fun m => { role := m.role, content := m.content }) },
     [("x-api-key", cfg.apiKey), ("Content-Type", "application/json"),
      ("anthropic-version", "2023-06-01")])
  else
    (RequestBody.openai
      { model := cfg.model
        messages := messages
        max_tokens := maxTokens
        temperature := 7 / 10 },
     [("Authorization", "Bearer " ++ cfg.apiKey),
      ("Content-Type", "application/json")])

/-- `error.response.data` as far as the catch block inspects it: the optional
`error.message` field inside it. -/
structure UpstreamErrorData where
  errorMessage : Option String
deriving DecidableEq

/-- The outcome of the `axios.post` call, an input to the model of
`callMegaLLM`.  On success (2xx) the response data carries
`content` (the texts of the Anthropic `content` array) and `choices` (the
`message.content` texts of the OpenAI `choices` array); the adapter reads one
of the two depending on the format branch.  `httpError` is a rejection with
`error.response` present; `netError` is a rejection with only `error.code`. -/
inductive UpstreamOutcome where
  | success (content : List String) (choices : List String)
  | httpError (status : Nat) (data : UpstreamErrorData)
  | netError (code : String)
deriving DecidableEq

def msgNoKey : String :=
  "API key not configured. Set MEGALLM_API_KEY environment variable."

def msg401 : String :=
  "Invalid API key. Please check your MEGALLM_API_KEY environment variable."

def msg429 : String :=
  "API rate limit exceeded. Please wait a moment and try again."

def msg5xx : String :=
  "AI service is temporarily unavailable. Please try again later."

def msgTimeout : String :=
  "Request timed out. The AI service is taking too long to respond. Please try again."

def msgConnect : String :=
  "Cannot connect to AI service. Please check your internet connection."

def msgGeneric : String :=
  "Failed to generate presentation. Please try again."

/-- The catch-block classification (server.js lines 133–150): `statusCode` is
`error.response?.status`, `errData` is `error.response?.data`, `code` is
`error.code`. -/
def classifyFailure (statusCode : Option Nat) (errData : Option UpstreamErrorData)
    (code : Option String) : String :=
  if statusCode = some 401 then msg401
  else if statusCode = some 429 then msg429
  else if statusCode = some 500 ∨ statusCode = some 502 ∨ statusCode = some 503 then msg5xx
  else if code = some "ECONNABORTED" then msgTimeout
  else if code = some "ENOTFOUND" ∨ code = some "ECONNREFUSED" then msgConnect
  else
    match errData with
    | some d =>
        match d.errorMessage with
        | some m => "AI Service Error: " ++ m
        | none => msgGeneric
    | none => msgGeneric

/-- What one `callMegaLLM` invocation produces: a returned text or a thrown
error message, the `apiStatus` after the call, and the request that was posted
(`none` when the function threw before reaching `axios.post`). -/
structure CallResult where
  result : Except String String
  status : ApiStatus
  sentRequest : Option (RequestBody × Headers)
deriving DecidableEq

/-- `callMegaLLM` (server.js lines 59–152).  `st` is the `apiStatus` value
before the call, `now` the current time, `outcome` what the network does.
An empty `choices`/`content` array on success makes `content[0].text`
(or `choices[0].message.content`) throw a TypeError inside the try block,
which the catch classifies with no `response` and no `code`. -/
def callMegaLLM (cfg : Config) (st : ApiStatus) (now : Nat)
    (messages : List ChatMessage) (maxTokens : Nat)
    (outcome : UpstreamOutcome) : CallResult :=
  if cfg.apiKey = "" then
    { result := .error msgNoKey, status := st, sentRequest := none }
  else
    let req := buildRequest cfg messages maxTokens
    match outcome with
    | .success content choices =>
        let okSt : ApiStatus := { st with healthy := true, lastCheck := some now }
        let failSt : ApiStatus := { st with healthy := false, lastCheck := some now }
        if isAnthropicHost cfg then
          match content with
          | t :: _ => { result := .ok t, status := okSt, sentRequest := some req }
          | [] => { result := .error (classifyFailure none none none),
                    status := failSt, sentRequest := some req }
        else
          match choices with
          | t :: _ => { result := .ok t, status := okSt, sentRequest := some req }
          | [] => { result := .error (classifyFailure none none none),
                    status := failSt, sentRequest := some req }
    | .httpError s d =>
        { result := .error (classifyFailure (some s) (some d) none)
          status := { st with healthy := false, lastCheck := some now }
          sentRequest := some req }
    | .netError c =>
        { result := .error (classifyFailure none none (some c))
          status := { st with healthy := false, lastCheck := some now }
          sentRequest := some req }

/-- The JSON body returned by `GET /api/health` (server.js lines 298–312). -/
structure HealthStatus where
  status : String
  model : String
  apiConfigured : Bool
  lastCheck : Option Nat
  healthy : Bool
  message : Option String
deriving DecidableEq

/-- The health endpoint handler (server.js lines 298–312). -/
def healthHandler (cfg : Config) (st : ApiStatus) : HealthStatus :=
  { status := if st.configured then "ok" else "unconfigured"
    model := cfg.model
    apiConfigured := st.configured
    lastCheck := st.lastCheck
    healthy := st.healthy
    message := if st.configured then none else some msgNoKey }

/-! ## The generation pipeline (server.js lines 154–295) -/

/-- The fields of a slide object that the pipeline reads or writes.
`enhancedNotes` and `transition` are absent (`none`) until stage 2 sets them. -/
structure Slide where
  type : String
  title : String
  content : List String
  notes : String
  enhancedNotes : Option String
  transition : Option String
deriving DecidableEq

/-- An element of the `slides` array as a JavaScript value: the JSON from the model
may put any value there, and the merge guard tests its truthiness, so
non-object elements are represented explicitly. -/
inductive SlideVal where
  | obj (s : Slide)
  | nullv
  | boolv (b : Bool)
  | numv (n : Int)
  | strv (s : String)
deriving DecidableEq

/-- JavaScript truthiness of a slide-array element (objects are always truthy;
`null`, `false`, `0` and `""` are falsy). -/
def truthy : SlideVal → Bool
  | .obj _ => true
  | .nullv => false
  | .boolv b => b
  | .numv n => n != 0
  | .strv s => s != ""

/-- The presentation document.  `id`, `createdAt`, `topic` are absent until
the finalize step assigns them; `keyTakeaways` is absent until stage 2 sets
it. -/
structure Presentation where
  title : String
  subtitle : String
  slides : List SlideVal
  keyTakeaways : Option (List String)
  id : Option String
  createdAt : Option String
  topic : Option String
deriving DecidableEq

/-- One well-formed entry of `enhancedSlides`: `{ slideIndex, enhancedNotes,
transition }`.  `slideIndex` is an integer and may be negative. -/
structure EnhEntry where
  slideIndex : Int
  enhancedNotes : String
  transition : String
deriving DecidableEq

/-- An element of the parsed `enhancedSlides` array as a JavaScript value.
`nullish` is `null` (JSON can produce it): reading `e.slideIndex` from it
throws a TypeError.  `prim` is any other non-object (number, string, boolean):
`e.slideIndex` is `undefined`, so `slides[undefined]` is `undefined` and the
entry is skipped without error. -/
inductive EntryVal where
  | objE (e : EnhEntry)
  | nullish
  | prim
deriving DecidableEq

/-- The in-place assignments `slides[i].enhancedNotes = ...; slides[i].transition = ...`
(server.js lines 251–252).  On a truthy non-object, property assignment is a
silent no-op (sloppy mode), so the value is returned unchanged. -/
def setEnh (v : SlideVal) (notes transition : String) : SlideVal :=
  match v with
  | .obj s => .obj { s with enhancedNotes := some notes, transition := some transition }
  | v => v

/-- `presentation.slides[i]` for an integer index `i`: `undefined` (`none`)
when `i` is negative or beyond the array. -/
def slideAt (slides : List SlideVal) (i : Int) : Option SlideVal :=
  if 0 ≤ i then slides.get? i.toNat else none

/-- One iteration of the merge loop (server.js lines 249–254): if
`presentation.slides[e.slideIndex]` is truthy, set its `enhancedNotes` and
`transition`; otherwise do nothing. -/
def applyEntry (slides : List SlideVal) (e : EnhEntry) : List SlideVal :=
  match slideAt slides e.slideIndex with
  | some v =>
      if truthy v then
        slides.set e.slideIndex.toNat (setEnh v e.enhancedNotes e.transition)
      else slides
  | none => slides

/-- The `enhancedSlides.forEach` loop over JavaScript values.  Returns the
slides after the loop together with whether the loop threw (a `nullish` entry
throws a TypeError at `e.slideIndex`, aborting the loop; mutations already
made to the slides persist). -/
def applyEntries : List EntryVal → List SlideVal → List SlideVal × Bool
  | [], slides => (slides, false)
  | .nullish :: _, slides => (slides, true)
  | .prim :: rest, slides => applyEntries rest slides
  | .objE e :: rest, slides => applyEntries rest (applyEntry slides e)

/-- The outcome of the stage-2 upstream call and parse, an input to the model of
`enhancePresentation`: `callFailure` is a thrown error from `callMegaLLM` or
from `JSON.parse`; `parsed` is a successfully parsed value, whose
`enhancedSlides` is `none` when absent or not an array (then `.forEach` throws
before touching any slide) and whose `keyTakeaways` is `none` when absent or
falsy. -/
inductive EnhOutcome where
  | callFailure
  | parsed (enhancedSlides : Option (List EntryVal)) (keyTakeaways : Option (List String))
deriving DecidableEq

/-- The merge of a successfully parsed enhancement value (server.js lines
246–259): run the `forEach` over `enhancedSlides`; if it threw, the mutated
presentation is what the catch block returns; otherwise set `keyTakeaways`
when present and return the presentation. -/
def mergeEnhancements (p : Presentation) (entries : List EntryVal)
    (kt : Option (List String)) : Presentation :=
  if (applyEntries entries p.slides).2 then
    { p with slides := (applyEntries entries p.slides).1 }
  else
    match kt with
    | some k => { p with slides := (applyEntries entries p.slides).1,
                         keyTakeaways := some k }
    | none => { p with slides := (applyEntries entries p.slides).1 }

/-- `enhancePresentation` (server.js lines 217–266).  Every error inside the
try block is caught and the (possibly partially mutated, since slide objects
are updated in place) presentation is returned. -/
def enhancePresentation (p : Presentation) (outcome : EnhOutcome) : Presentation :=
  match outcome with
  | .callFailure => p
  | .parsed none _ => p
  | .parsed (some entries) kt => mergeEnhancements p entries kt

/-- The fixed system prompt of the structure stage (server.js lines 156–190). -/
def structureSystemText : String :=
  "You are an expert presentation designer. Your task is to create a detailed, professional slideshow structure.\n\nYou MUST respond with ONLY valid JSON, no markdown, no explanations. The JSON structure should be:\n\x7b\n  \"title\": \"Main presentation title\",\n  \"subtitle\": \"A compelling subtitle\",\n  \"slides\": [\n    \x7b\n      \"type\": \"title|content|comparison|chart|quote|image|conclusion\",\n      \"title\": \"Slide title\",\n      \"content\": [\"Bullet point 1\", \"Bullet point 2\"],\n      \"notes\": \"Speaker notes\",\n      \"chartData\": \x7b \"type\": \"bar|line|pie|doughnut\", \"labels\": [], \"values\": [], \"label\": \"Dataset name\" \x7d,\n      \"imageSearch\": \"search query for relevant image\",\n      \"quote\": \x7b \"text\": \"Quote text\", \"author\": \"Author name\" \x7d,\n      \"leftColumn\": \x7b \"title\": \"\", \"content\": [] \x7d,\n      \"rightColumn\": \x7b \"title\": \"\", \"content\": [] \x7d\n    \x7d\n  ],\n  \"theme\": \x7b\n    \"primaryColor\": \"#hex\",\n    \"secondaryColor\": \"#hex\",\n    \"backgroundColor\": \"#hex\",\n    \"textColor\": \"#hex\"\n  \x7d\n\x7d\n\nGuidelines:\n- Create 8-15 slides depending on topic complexity\n- Use varied slide types to keep it engaging\n- Include at least 2 charts with realistic data when relevant\n- Add image search queries for visual slides\n- Use professional, modern color schemes\n- Include speaker notes for each slide\n- Make content concise but informative"

/-- The user prompt of the structure stage (server.js lines 192–194). -/
def structureUserText (topic : String) : String :=
  "Create a comprehensive, professional presentation about: \"" ++ topic ++
    "\"\n\nMake it visually engaging with charts, images, and varied layouts. Include realistic data for any charts. Make it presentation-ready."

/-- The message list sent by the structure stage (server.js lines 196–199). -/
def structureMessages (topic : String) : List ChatMessage :=
  [{ role := "system", content := structureSystemText },
   { role := "user", content := structureUserText topic }]

/-- `generatePresentationStructure` up to the `JSON.parse` call (server.js
lines 155–214): builds the two prompts, calls the adapter with a token budget
of 8000, and fence-strips the returned text.  The `.ok` payload is the exact
string handed to `JSON.parse` (the JSON library itself is not re-modelled).
Returns also the status after the call and the request that was posted. -/
def generatePresentationStructure (cfg : Config) (st : ApiStatus) (now : Nat)
    (topic : String) (outcome : UpstreamOutcome) :
    Except String JStr × ApiStatus × Option (RequestBody × Headers) :=
  let c := callMegaLLM cfg st now (structureMessages topic) 8000 outcome
  match c.result with
  | .error m => (.error m, c.status, c.sentRequest)
  | .ok text => (.ok (stripFences text.toList), c.status, c.sentRequest)

/-- The response sent by `POST /api/generate`, plus a flag recording whether
the handler reached the upstream pipeline (`generatePresentationStructure`)
at all. -/
structure GenResponse where
  status : Nat
  error : Option String
  doc : Option Presentation
  calledUpstream : Bool
deriving DecidableEq

/-- The `/api/generate` handler (server.js lines 269–295).  `topic` is the
request-body field (`none` when absent); `stage1` is what
`generatePresentationStructure` produced (a document, or a thrown error
message); `enh` is the outcome of the stage-2 call and parse; `newId` and
`createdAt` are the fresh uuid and timestamp of the finalize step. -/
def generateHandler (topic : Option String) (stage1 : Except String Presentation)
    (enh : EnhOutcome) (newId createdAt : String) : GenResponse :=
  match topic with
  | none =>
      { status := 400, error := some "Please provide a topic", doc := none,
        calledUpstream := false }
  | some t =>
      if jsTrim t.toList = [] then
        { status := 400, error := some "Please provide a topic", doc := none,
          calledUpstream := false }
      else
        match stage1 with
        | .error m =>
            { status := 500
              error := some (if m = "" then "Failed to generate presentation" else m)
              doc := none
              calledUpstream := true }
        | .ok p =>
            { status := 200, error := none
              doc := some { enhancePresentation p enh with
                              id := some newId, createdAt := some createdAt,
                              topic := some t }
              calledUpstream := true }

/-! ### Lemmas about the merge loop -/

/-- Slide-value comparison that ignores the two stage-2 fields: both values
are the same except possibly in `enhancedNotes` and `transition`. -/
def sameExceptEnh (v w : SlideVal) : Bool :=
  match v, w with
  | .obj s, .obj s' =>
      s.type == s'.type && s.title == s'.title && s.content == s'.content &&
        s.notes == s'.notes
  | v, w => v == w

/-- `sameExceptEnh` lifted to optional values (array lookups). -/
def sameExceptEnhOpt : Option SlideVal → Option SlideVal → Bool
  | some v, some w => sameExceptEnh v w
  | none, none => true
  | _, _ => false

theorem sameExceptEnh_refl (v : SlideVal) : sameExceptEnh v v = true := by
  cases v <;> simp [sameExceptEnh]

theorem sameExceptEnh_trans (u v w : SlideVal) (h1 : sameExceptEnh u v = true)
    (h2 : sameExceptEnh v w = true) : sameExceptEnh u w = true := by
  cases u <;> cases v <;> cases w <;> simp_all [sameExceptEnh]

theorem sameExceptEnhOpt_refl (o : Option SlideVal) : sameExceptEnhOpt o o = true := by
  cases o with
  | none => rfl
  | some v => exact sameExceptEnh_refl v

theorem sameExceptEnhOpt_trans (o1 o2 o3 : Option SlideVal)
    (h1 : sameExceptEnhOpt o1 o2 = true) (h2 : sameExceptEnhOpt o2 o3 = true) :
    sameExceptEnhOpt o1 o3 = true := by
  cases o1 <;> cases o2 <;> cases o3 <;> simp_all [sameExceptEnhOpt]
  exact sameExceptEnh_trans _ _ _ h1 h2

theorem sameExceptEnh_setEnh (v : SlideVal) (notes transition : String) :
    sameExceptEnh v (setEnh v notes transition) = true := by
  cases v <;> simp [sameExceptEnh, setEnh]

theorem applyEntry_length (slides : List SlideVal) (e : EnhEntry) :
    (applyEntry slides e).length = slides.length := by
  unfold applyEntry
  cases h : slideAt slides e.slideIndex with
  | none => rfl
  | some v =>
      by_cases ht : truthy v = true
      · simp [ht]
      · simp [ht]

theorem slideAt_some (slides : List SlideVal) (i : Int) (v : SlideVal)
    (h : slideAt slides i = some v) :
    0 ≤ i ∧ slides.get? i.toNat = some v := by
  unfold slideAt at h
  by_cases hi : 0 ≤ i
  · rw [if_pos hi] at h
    exact ⟨hi, h⟩
  · rw [if_neg hi] at h
    exact absurd h (by simp)

theorem applyEntry_get?_notAddressed (slides : List SlideVal) (e : EnhEntry)
    (i : Nat) (h : e.slideIndex ≠ (i : Int)) :
    (applyEntry slides e).get? i = slides.get? i := by
  unfold applyEntry
  cases hv : slideAt slides e.slideIndex with
  | none => rfl
  | some v =>
      obtain ⟨hge, _⟩ := slideAt_some slides e.slideIndex v hv
      by_cases ht : truthy v = true
      · simp only [ht, if_true]
        have hne : e.slideIndex.toNat ≠ i := by
          intro heq
          apply h
          rw [← heq, Int.toNat_of_nonneg hge]
        exact List.get?_set_ne _ _ hne
      · simp [ht]

theorem applyEntry_frame (slides : List SlideVal) (e : EnhEntry) (i : Nat) :
    sameExceptEnhOpt (slides.get? i) ((applyEntry slides e).get? i) = true := by
  unfold applyEntry
  cases hv : slideAt slides e.slideIndex with
  | none => exact sameExceptEnhOpt_refl _
  | some v =>
      obtain ⟨hge, hget⟩ := slideAt_some slides e.slideIndex v hv
      by_cases ht : truthy v = true
      · simp only [ht, if_true]
        by_cases heq : e.slideIndex.toNat = i
        · subst heq
          obtain ⟨hlen, _⟩ := List.get?_eq_some.mp hget
          rw [hget, List.get?_set_eq_of_lt _ hlen]
          exact sameExceptEnh_setEnh v _ _
        · rw [List.get?_set_ne _ _ heq]
          exact sameExceptEnhOpt_refl _
      · simp only [ht]
        rw [if_neg (by simp [ht])]
        exact sameExceptEnhOpt_refl _

theorem applyEntries_objE_noThrow (es : List EnhEntry) (slides : List SlideVal) :
    (applyEntries (es.map EntryVal.objE) slides).2 = false := by
  induction es generalizing slides with
  | nil => rfl
  | cons e rest ih => exact ih (applyEntry slides e)

theorem applyEntries_objE_fst (es : List EnhEntry) (slides : List SlideVal) :
    (applyEntries (es.map EntryVal.objE) slides).1 =
      es.foldl applyEntry slides := by
  induction es generalizing slides with
  | nil => rfl
  | cons e rest ih => exact ih (applyEntry slides e)

theorem foldl_applyEntry_length (es : List EnhEntry) (slides : List SlideVal) :
    (es.foldl applyEntry slides).length = slides.length := by
  induction es generalizing slides with
  | nil => rfl
  | cons e rest ih => rw [List.foldl_cons, ih, applyEntry_length]

theorem foldl_applyEntry_get?_notAddressed (es : List EnhEntry) (slides : List SlideVal)
    (i : Nat) (h : ∀ e ∈ es, e.slideIndex ≠ (i : Int)) :
    (es.foldl applyEntry slides).get? i = slides.get? i := by
  induction es generalizing slides with
  | nil => rfl
  | cons e rest ih =>
      rw [List.foldl_cons, ih _ (fun e' he' => h e' (by simp [he'])),
        applyEntry_get?_notAddressed slides e i (h e (by simp))]

theorem foldl_applyEntry_frame (es : List EnhEntry) (slides : List SlideVal) (i : Nat) :
    sameExceptEnhOpt (slides.get? i) ((es.foldl applyEntry slides).get? i) = true := by
  induction es generalizing slides with
  | nil => exact sameExceptEnhOpt_refl _
  | cons e rest ih =>
      rw [List.foldl_cons]
      exact sameExceptEnhOpt_trans _ _ _ (applyEntry_frame slides e i)
        (ih (applyEntry slides e))

theorem foldl_applyEntry_outOfRange (es : List EnhEntry) (slides : List SlideVal)
    (h : ∀ e ∈ es, slideAt slides e.slideIndex = none) :
    es.foldl applyEntry slides = slides := by
  induction es with
  | nil => rfl
  | cons e rest ih =>
      rw [List.foldl_cons]
      have he : applyEntry slides e = slides := by
        unfold applyEntry
        rw [h e (by simp)]
      rw [he]
      exact ih (fun e' he' => h e' (by simp [he']))

theorem find?_eq_head?_of_filter {α : Type} (p : α → Bool) (l : List α) :
    l.find? p = (l.filter p).head? := by
  induction l with
  | nil => rfl
  | cons a as ih =>
      cases h : p a with
      | true =>
          rw [List.find?_cons_of_pos _ h, List.filter_cons_of_pos h]
          rfl
      | false =>
          rw [List.find?_cons_of_neg _ (by simp [h]),
            List.filter_cons_of_neg (by simp [h]), ih]

/-! ## The claims -/

/-- C2: fence stripping is exact and idempotent.  For a trimmed, fence-free
body `t` (a strict JSON serialization is such a string and, unless it is the
serialization of a string literal starting with the characters `json`, also
satisfies the `jsonTag` side condition): wrapping `t` in ```json ... ``` or
``` ... ``` markers with arbitrary surrounding whitespace produces, after
stripping, exactly the same string handed to `JSON.parse` as the unwrapped
`t` does — hence `JSON.parse` returns the same value on both.  And a string
carrying no fence markers is only trimmed, so stripping twice equals
stripping once. -/
theorem c2_fence_stripping :
    (∀ (t w1 w2 w3 w4 : JStr), jsTrim t = t → noFence t →
        allWS w1 → allWS w2 → allWS w3 → allWS w4 →
        stripFences (w1 ++ (fenceJson ++ (w2 ++ (t ++ (w3 ++ (fence3 ++ w4)))))) =
            stripFences t ∧
        (jsonTag.isPrefixOf (w2 ++ (t ++ (w3 ++ fence3))) = false →
          stripFences (w1 ++ (fence3 ++ (w2 ++ (t ++ (w3 ++ (fence3 ++ w4)))))) =
            stripFences t) ∧
        stripFences t = t) ∧
    (∀ s : JStr, noFence (jsTrim s) →
        stripFences s = jsTrim s ∧ stripFences (stripFences s) = stripFences s) := by
  constructor
  · intro t w1 w2 w3 w4 ht hnf h1 h2 h3 h4
    have htf : stripFences t = t := by
      have hn : noFence (jsTrim t) := by rw [ht]; exact hnf
      rw [stripFences_noFence t hn, ht]
    refine ⟨?_, ?_, htf⟩
    · calc stripFences (w1 ++ (fenceJson ++ (w2 ++ (t ++ (w3 ++ (fence3 ++ w4))))))
          = jsTrim (w2 ++ (t ++ w3)) := stripFences_wrappedJson w1 w2 t w3 w4 h1 h4
        _ = jsTrim t := jsTrim_ws_sandwich w2 t w3 h2 h3
        _ = t := ht
        _ = stripFences t := htf.symm
    · intro hj
      calc stripFences (w1 ++ (fence3 ++ (w2 ++ (t ++ (w3 ++ (fence3 ++ w4))))))
          = jsTrim (w2 ++ (t ++ w3)) := stripFences_wrappedPlain w1 w2 t w3 w4 h1 h4 hj
        _ = jsTrim t := jsTrim_ws_sandwich w2 t w3 h2 h3
        _ = t := ht
        _ = stripFences t := htf.symm
  · intro s hnf
    have h1 : stripFences s = jsTrim s := stripFences_noFence s hnf
    refine ⟨h1, ?_⟩
    rw [h1]
    have h2 : noFence (jsTrim (jsTrim s)) := by rw [jsTrim_idem]; exact hnf
    rw [stripFences_noFence (jsTrim s) h2, jsTrim_idem]

theorem c2_fence_stripping_witness :
    stripFences ([] ++ (fenceJson ++ (['\n'] ++ (['1'] ++ (['\n'] ++ (fence3 ++ [])))))) =
        stripFences ['1'] ∧
      stripFences ['1'] = ['1'] ∧
      stripFences (stripFences ['>']) = stripFences ['>'] := by
  have h := c2_fence_stripping.1 ['1'] [] ['\n'] ['\n'] []
    (by decide) (by decide) (by decide) (by decide) (by decide) (by decide)
  exact ⟨h.1, h.2.2, (c2_fence_stripping.2 ['>'] (by decide)).2⟩

/-- C3: the choice of wire format depends on the configured hostname alone.
For the designated host the constructed request is in format A (an Anthropic
body with a top-level `system` field, and `x-api-key` / `anthropic-version`
headers); for every other hostname it is in format B (OpenAI body carrying
the messages inline, temperature 0.7, bearer `Authorization` header); and the
branch taken is the same for all message lists and token budgets. -/
theorem c3_format_by_hostname (cfg : Config) (messages : List ChatMessage)
    (maxTokens : Nat) :
    (cfg.hostname = "api.anthropic.com" →
      (∃ b : AnthropicBody, (buildRequest cfg messages maxTokens).1 = .anthropic b) ∧
      (buildRequest cfg messages maxTokens).2 =
        [("x-api-key", cfg.apiKey), ("Content-Type", "application/json"),
         ("anthropic-version", "2023-06-01")]) ∧
    (cfg.hostname ≠ "api.anthropic.com" →
      (∃ b : OpenAIBody, (buildRequest cfg messages maxTokens).1 = .openai b ∧
        b.messages = messages ∧ b.temperature = 7 / 10) ∧
      (buildRequest cfg messages maxTokens).2 =
        [("Authorization", "Bearer " ++ cfg.apiKey),
         ("Content-Type", "application/json")]) ∧
    (∀ (messages2 : List ChatMessage) (maxTokens2 : Nat),
      (buildRequest cfg messages maxTokens).1.isAnthropic =
        (buildRequest cfg messages2 maxTokens2).1.isAnthropic) := by
  refine ⟨?_, ?_, ?_⟩
  · intro h
    simp only [buildRequest, isAnthropicHost, h, beq_self_eq_true, if_true]
    exact ⟨⟨_, rfl⟩, by trivial⟩
  · intro h
    have hb : (cfg.hostname == "api.anthropic.com") = false := by
      simp [h]
    simp only [buildRequest, isAnthropicHost, hb, Bool.false_eq_true, if_false]
    exact ⟨⟨_, rfl, rfl, rfl⟩, by trivial⟩
  · intro messages2 maxTokens2
    by_cases h : cfg.hostname = "api.anthropic.com" <;>
      simp [buildRequest, isAnthropicHost, h, RequestBody.isAnthropic]

theorem c3_format_by_hostname_witness :
    ((∃ b : AnthropicBody,
        (buildRequest ⟨"k", "m", "api.anthropic.com"⟩ [⟨"user", "hi"⟩] 5).1 =
          .anthropic b) ∧
      (buildRequest ⟨"k", "m", "api.anthropic.com"⟩ [⟨"user", "hi"⟩] 5).2 =
        [("x-api-key", "k"), ("Content-Type", "application/json"),
         ("anthropic-version", "2023-06-01")]) ∧
    ((∃ b : OpenAIBody,
        (buildRequest ⟨"k", "m", "megallm.example.com"⟩ [⟨"user", "hi"⟩] 5).1 =
          .openai b ∧ b.messages = [⟨"user", "hi"⟩] ∧ b.temperature = 7 / 10) ∧
      (buildRequest ⟨"k", "m", "megallm.example.com"⟩ [⟨"user", "hi"⟩] 5).2 =
        [("Authorization", "Bearer " ++ "k"), ("Content-Type", "application/json")]) :=
  ⟨(c3_format_by_hostname ⟨"k", "m", "api.anthropic.com"⟩ [⟨"user", "hi"⟩] 5).1 rfl,
   (c3_format_by_hostname ⟨"k", "m", "megallm.example.com"⟩ [⟨"user", "hi"⟩] 5).2.1
     (by decide)⟩

/-- C6: in format A the adapter extracts the content of the first message
with role "system" (empty string when none) as the top-level `system` field,
and passes exactly the non-system messages, in their original order (a
sublist of the input), as the conversation body. -/
theorem c6_formatA_system_extraction (cfg : Config) (messages : List ChatMessage)
    (maxTokens : Nat) (hhost : cfg.hostname = "api.anthropic.com")
    (_hne : messages ≠ []) :
    ∃ b : AnthropicBody, (buildRequest cfg messages maxTokens).1 = .anthropic b ∧
      b.messages = messages.filter (fun m => m.role != "system") ∧
      List.Sublist b.messages messages ∧
      b.system = (match (messages.filter (fun m => m.role == "system")).head? with
                  | some m => m.content
                  | none => "") := by
  have heta : (fun m : ChatMessage =>
      ({ role := m.role, content := m.content } : ChatMessage)) = id :=
    funext (fun m => rfl)
  simp only [buildRequest, isAnthropicHost, hhost, beq_self_eq_true, if_true]
  refine ⟨_, rfl, ?_, ?_, ?_⟩
  · rw [heta, List.map_id]
  · rw [heta, List.map_id]
    exact List.filter_sublist messages
  · rw [find?_eq_head?_of_filter]
    cases hh : (messages.filter (fun m => m.role == "system")).head? with
    | none => simp [hh]
    | some m => simp [hh]

theorem c6_formatA_system_extraction_witness :
    ∃ b : AnthropicBody,
      (buildRequest ⟨"k", "m", "api.anthropic.com"⟩
          [⟨"system", "sys"⟩, ⟨"user", "hi"⟩] 5).1 = .anthropic b ∧
      b.messages = List.filter (fun m => m.role != "system")
          [⟨"system", "sys"⟩, ⟨"user", "hi"⟩] ∧
      List.Sublist b.messages [⟨"system", "sys"⟩, ⟨"user", "hi"⟩] ∧
      b.system = (match (List.filter (fun m : ChatMessage => m.role == "system")
            [⟨"system", "sys"⟩, ⟨"user", "hi"⟩]).head? with
          | some m => m.content
          | none => "") :=
  c6_formatA_system_extraction ⟨"k", "m", "api.anthropic.com"⟩
    [⟨"system", "sys"⟩, ⟨"user", "hi"⟩] 5 rfl (by decide)

/-- C4 counterexample: the claim groups every HTTP 5xx status into the
upstream-unavailable class, but the code only treats 500, 502 and 503 that
way: a 504 response (with no error body) falls through to the generic
fallback message, so it does not produce the same message as a 500. -/
theorem c4_5xx_counterexample :
    (callMegaLLM ⟨"k", "m", "api.example.com"⟩ ⟨true, none, false⟩ 0 [] 100
        (.httpError 504 ⟨none⟩)).result ≠
      (callMegaLLM ⟨"k", "m", "api.example.com"⟩ ⟨true, none, false⟩ 0 [] 100
        (.httpError 500 ⟨none⟩)).result := by
  decide

/-- C4 (amended): each error class maps to a distinct human-readable message —
missing credential, HTTP 401, HTTP 429, HTTP 500/502/503 (upstream
unavailable; other 5xx statuses fall to the generic fallback), timeout,
connection unreachable, and the generic fallback are pairwise distinct; in
particular 429 yields a message distinct from the 500-class message. -/
theorem c4_error_taxonomy (cfg : Config) (st : ApiStatus) (now : Nat)
    (messages : List ChatMessage) (maxTokens : Nat) (d : UpstreamErrorData)
    (hkey : cfg.apiKey ≠ "") :
    (callMegaLLM cfg st now messages maxTokens (.httpError 401 d)).result =
        .error msg401 ∧
    (callMegaLLM cfg st now messages maxTokens (.httpError 429 d)).result =
        .error msg429 ∧
    (∀ s, s = 500 ∨ s = 502 ∨ s = 503 →
      (callMegaLLM cfg st now messages maxTokens (.httpError s d)).result =
        .error msg5xx) ∧
    (callMegaLLM cfg st now messages maxTokens (.netError "ECONNABORTED")).result =
        .error msgTimeout ∧
    (∀ c, c = "ENOTFOUND" ∨ c = "ECONNREFUSED" →
      (callMegaLLM cfg st now messages maxTokens (.netError c)).result =
        .error msgConnect) ∧
    (callMegaLLM cfg st now messages maxTokens (.httpError 418 ⟨none⟩)).result =
        .error msgGeneric ∧
    (∀ cfg2 : Config, cfg2.apiKey = "" →
      (callMegaLLM cfg2 st now messages maxTokens (.httpError 429 d)).result =
        .error msgNoKey) ∧
    List.Pairwise (· ≠ ·)
      [msgNoKey, msg401, msg429, msg5xx, msgTimeout, msgConnect, msgGeneric] := by
  refine ⟨?_, ?_, ?_, ?_, ?_, ?_, ?_, ?_⟩
  · simp [callMegaLLM, classifyFailure, hkey]
  · simp [callMegaLLM, classifyFailure, hkey]
  · rintro s (rfl | rfl | rfl) <;> simp [callMegaLLM, classifyFailure, hkey]
  · simp [callMegaLLM, classifyFailure, hkey]
  · rintro c (rfl | rfl) <;> simp [callMegaLLM, classifyFailure, hkey]
  · simp [callMegaLLM, classifyFailure, hkey]
  · intro cfg2 h2
    simp [callMegaLLM, h2]
  · decide

theorem c4_error_taxonomy_witness :
    (callMegaLLM ⟨"k", "m", "h"⟩ ⟨true, none, false⟩ 0 [] 1
        (.httpError 429 ⟨none⟩)).result = .error msg429 ∧
    (callMegaLLM ⟨"k", "m", "h"⟩ ⟨true, none, false⟩ 0 [] 1
        (.httpError 500 ⟨none⟩)).result = .error msg5xx :=
  ⟨(c4_error_taxonomy ⟨"k", "m", "h"⟩ ⟨true, none, false⟩ 0 [] 1 ⟨none⟩
      (by decide)).2.1,
   (c4_error_taxonomy ⟨"k", "m", "h"⟩ ⟨true, none, false⟩ 0 [] 1 ⟨none⟩
      (by decide)).2.2.1 500 (Or.inl rfl)⟩

/-- C7: a request whose topic is absent, empty, or whitespace-only is rejected
with status 400 and the "Please provide a topic" error, and the pipeline
(hence the adapter) is never invoked — the response is this regardless of
what the upstream stages would have produced. -/
theorem c7_empty_topic (topic : Option String)
    (h : topic = none ∨ ∃ t, topic = some t ∧ jsTrim t.toList = [])
    (stage1 : Except String Presentation) (enh : EnhOutcome)
    (newId createdAt : String) :
    generateHandler topic stage1 enh newId createdAt =
      { status := 400, error := some "Please provide a topic", doc := none,
        calledUpstream := false } := by
  rcases h with h | ⟨t, ht, htrim⟩
  · rw [h]
    rfl
  · rw [ht]
    have htrim' : jsTrim t.data = [] := htrim
    simp [generateHandler, htrim']

theorem c7_empty_topic_witness :
    generateHandler (some "  ") (.error "boom") .callFailure "id" "ts" =
      { status := 400, error := some "Please provide a topic", doc := none,
        calledUpstream := false } :=
  c7_empty_topic (some "  ") (Or.inr ⟨"  ", rfl, by decide⟩)
    (.error "boom") .callFailure "id" "ts"

/-- C8: with no API key configured, every adapter call fails at call time with
the missing-credential message, before any upstream request is issued
(`sentRequest = none`) and without touching the status; the structure stage
therefore fails the generate request with that same message; and the health
query stays operational, reporting status "unconfigured" and
`apiConfigured = false`. -/
theorem c8_missing_key (cfg : Config) (hkey : cfg.apiKey = "") :
    (∀ (st : ApiStatus) (now : Nat) (messages : List ChatMessage)
        (maxTokens : Nat) (outcome : UpstreamOutcome),
      callMegaLLM cfg st now messages maxTokens outcome =
        { result := .error msgNoKey, status := st, sentRequest := none }) ∧
    (∀ (st : ApiStatus) (now : Nat) (topic : String) (outcome : UpstreamOutcome),
      (generatePresentationStructure cfg st now topic outcome).1 =
          .error msgNoKey ∧
        (generatePresentationStructure cfg st now topic outcome).2.2 = none) ∧
    (initialStatus cfg).configured = false ∧
    (∀ st : ApiStatus, st.configured = false →
      healthHandler cfg st =
        { status := "unconfigured", model := cfg.model, apiConfigured := false,
          lastCheck := st.lastCheck, healthy := st.healthy,
          message := some msgNoKey }) ∧
    (∀ (t : String) (enh : EnhOutcome) (newId createdAt : String),
      jsTrim t.toList ≠ [] →
        generateHandler (some t) (.error msgNoKey) enh newId createdAt =
          { status := 500, error := some msgNoKey, doc := none,
            calledUpstream := true }) := by
  have hcall : ∀ (st : ApiStatus) (now : Nat) (messages : List ChatMessage)
      (maxTokens : Nat) (outcome : UpstreamOutcome),
      callMegaLLM cfg st now messages maxTokens outcome =
        { result := .error msgNoKey, status := st, sentRequest := none } := by
    intro st now messages maxTokens outcome
    simp [callMegaLLM, hkey]
  refine ⟨hcall, ?_, ?_, ?_, ?_⟩
  · intro st now topic outcome
    simp [generatePresentationStructure, hcall]
  · simp [initialStatus, hkey]
  · intro st hst
    simp [healthHandler, hst]
  · intro t enh newId createdAt htopic
    have htopic' : ¬ jsTrim t.data = [] := htopic
    simp only [generateHandler, htopic', if_false]
    have hmsg : (if msgNoKey = "" then "Failed to generate presentation"
        else msgNoKey) = msgNoKey := if_neg (by decide)
    rw [hmsg, if_neg htopic]

theorem c8_missing_key_witness :
    callMegaLLM ⟨"", "m", "api.anthropic.com"⟩ ⟨false, none, false⟩ 0 [] 1
        (.success ["x"] ["y"]) =
      { result := .error msgNoKey, status := ⟨false, none, false⟩,
        sentRequest := none } ∧
    healthHandler ⟨"", "m", "api.anthropic.com"⟩ ⟨false, none, false⟩ =
      { status := "unconfigured", model := "m", apiConfigured := false,
        lastCheck := none, healthy := false, message := some msgNoKey } :=
  ⟨(c8_missing_key ⟨"", "m", "api.anthropic.com"⟩ rfl).1
      ⟨false, none, false⟩ 0 [] 1 (.success ["x"] ["y"]),
   (c8_missing_key ⟨"", "m", "api.anthropic.com"⟩ rfl).2.2.2.1
      ⟨false, none, false⟩ rfl⟩

/-- C9: the diagnostic health flag is write-only for the adapter: two calls
with identical configuration, inputs and network outcome but arbitrary prior
`apiStatus` values produce the same result and post the same request (body
and headers); the call writes the flag (preserving `configured`) but never
reads it to make a decision. -/
theorem c9_health_flag_no_influence (cfg : Config) (now : Nat)
    (messages : List ChatMessage) (maxTokens : Nat) (outcome : UpstreamOutcome)
    (st1 st2 : ApiStatus) :
    (callMegaLLM cfg st1 now messages maxTokens outcome).result =
        (callMegaLLM cfg st2 now messages maxTokens outcome).result ∧
    (callMegaLLM cfg st1 now messages maxTokens outcome).sentRequest =
        (callMegaLLM cfg st2 now messages maxTokens outcome).sentRequest ∧
    (callMegaLLM cfg st1 now messages maxTokens outcome).status.configured =
        st1.configured := by
  by_cases hkey : cfg.apiKey = ""
  · simp [callMegaLLM, hkey]
  · cases outcome with
    | success content choices =>
        by_cases hh : isAnthropicHost cfg = true
        · cases content with
          | nil => simp [callMegaLLM, hkey, hh]
          | cons a as => simp [callMegaLLM, hkey, hh]
        · have hh' : isAnthropicHost cfg = false := by
            simp at hh
            exact hh
          cases choices with
          | nil => simp [callMegaLLM, hkey, hh']
          | cons a as => simp [callMegaLLM, hkey, hh']
    | httpError s d => simp [callMegaLLM, hkey]
    | netError c => simp [callMegaLLM, hkey]

/-- C5: the merge modifies only slides addressed by an `enhancedSlides` entry
whose `slideIndex` refers to an existing slide.  For any list of well-formed
entries: the loop raises no error (out-of-range and negative indices
included); the slide count is preserved; a position addressed by no entry is
unchanged; every position changes at most in its `enhancedNotes` and
`transition` fields; if every entry is out of range the slides are untouched;
`keyTakeaways` is set exactly when present in the enhancement result; and no
other document field changes. -/
theorem c5_merge_frame (p : Presentation) (es : List EnhEntry)
    (kt : Option (List String)) :
    (applyEntries (es.map EntryVal.objE) p.slides).2 = false ∧
    (enhancePresentation p (.parsed (some (es.map EntryVal.objE)) kt)).slides.length =
        p.slides.length ∧
    (∀ i : Nat, (∀ e ∈ es, e.slideIndex ≠ (i : Int)) →
      (enhancePresentation p (.parsed (some (es.map EntryVal.objE)) kt)).slides.get? i =
        p.slides.get? i) ∧
    (∀ i : Nat, sameExceptEnhOpt (p.slides.get? i)
      ((enhancePresentation p (.parsed (some (es.map EntryVal.objE)) kt)).slides.get? i) =
        true) ∧
    ((∀ e ∈ es, slideAt p.slides e.slideIndex = none) →
      (enhancePresentation p (.parsed (some (es.map EntryVal.objE)) kt)).slides =
        p.slides) ∧
    (enhancePresentation p (.parsed (some (es.map EntryVal.objE)) kt)).keyTakeaways =
        (match kt with | some k => some k | none => p.keyTakeaways) ∧
    (enhancePresentation p (.parsed (some (es.map EntryVal.objE)) kt)).title = p.title ∧
    (enhancePresentation p (.parsed (some (es.map EntryVal.objE)) kt)).subtitle =
        p.subtitle ∧
    (enhancePresentation p (.parsed (some (es.map EntryVal.objE)) kt)).id = p.id ∧
    (enhancePresentation p (.parsed (some (es.map EntryVal.objE)) kt)).createdAt =
        p.createdAt ∧
    (enhancePresentation p (.parsed (some (es.map EntryVal.objE)) kt)).topic =
        p.topic := by
  have hsnd := applyEntries_objE_noThrow es p.slides
  have hfst := applyEntries_objE_fst es p.slides
  have henh : enhancePresentation p (.parsed (some (es.map EntryVal.objE)) kt) =
      { p with slides := es.foldl applyEntry p.slides,
               keyTakeaways :=
                 match kt with | some k => some k | none => p.keyTakeaways } := by
    show mergeEnhancements p (es.map EntryVal.objE) kt = _
    unfold mergeEnhancements
    rw [hsnd]
    simp only [Bool.false_eq_true, if_false]
    cases kt with
    | none => rw [hfst]
    | some k => rw [hfst]
  rw [henh]
  exact ⟨hsnd, foldl_applyEntry_length es p.slides,
    fun i hi => foldl_applyEntry_get?_notAddressed es p.slides i hi,
    fun i => foldl_applyEntry_frame es p.slides i,
    fun hall => foldl_applyEntry_outOfRange es p.slides hall,
    rfl, rfl, rfl, rfl, rfl, rfl⟩

theorem c5_merge_frame_witness :
    (applyEntries (List.map EntryVal.objE [⟨5, "n", "t"⟩])
        [SlideVal.nullv]).2 = false ∧
    (enhancePresentation ⟨"T", "S", [SlideVal.nullv], none, none, none, none⟩
        (.parsed (some (List.map EntryVal.objE [⟨5, "n", "t"⟩])) none)).slides =
      [SlideVal.nullv] :=
  ⟨(c5_merge_frame ⟨"T", "S", [SlideVal.nullv], none, none, none, none⟩
      [⟨5, "n", "t"⟩] none).1,
   (c5_merge_frame ⟨"T", "S", [SlideVal.nullv], none, none, none, none⟩
      [⟨5, "n", "t"⟩] none).2.2.2.2.1 (by decide)⟩

/-- C10: the merge guard tests the truthiness of the slide value, not index
membership: an in-range entry addressing a falsy slide element (null, false,
0, empty string) is skipped exactly like an out-of-range one — the slide
never receives `enhancedNotes` or `transition` and no error is raised. -/
theorem c10_truthiness_guard (slides : List SlideVal) (e : EnhEntry) (i : Nat)
    (hidx : e.slideIndex = (i : Int)) (hlt : i < slides.length)
    (hfalsy : truthy (slides.get ⟨i, hlt⟩) = false) :
    applyEntry slides e = slides ∧
    applyEntries [EntryVal.objE e] slides = (slides, false) ∧
    (∀ p : Presentation, p.slides = slides →
      enhancePresentation p (.parsed (some [EntryVal.objE e]) none) = p) := by
  have hsa : slideAt slides e.slideIndex = some (slides.get ⟨i, hlt⟩) := by
    unfold slideAt
    rw [hidx, if_pos (Int.natCast_nonneg i)]
    have : ((i : Int)).toNat = i := by simp
    rw [this]
    exact List.get?_eq_get hlt
  have hfalsy' : truthy slides[i] = false := hfalsy
  have h1 : applyEntry slides e = slides := by
    unfold applyEntry
    rw [hsa]
    simp [hfalsy']
  have h2 : applyEntries [EntryVal.objE e] slides = (slides, false) := by
    show applyEntries [] (applyEntry slides e) = (slides, false)
    rw [h1]
    rfl
  refine ⟨h1, h2, ?_⟩
  intro p hp
  have h2' : applyEntries [EntryVal.objE e] p.slides = (p.slides, false) := by
    rw [hp]
    exact h2
  show mergeEnhancements p [EntryVal.objE e] none = p
  unfold mergeEnhancements
  rw [h2']
  simp

theorem c10_truthiness_guard_witness :
    applyEntry [SlideVal.nullv] ⟨0, "n", "t"⟩ = [SlideVal.nullv] ∧
    applyEntries [EntryVal.objE ⟨0, "n", "t"⟩] [SlideVal.nullv] =
      ([SlideVal.nullv], false) :=
  ⟨(c10_truthiness_guard [SlideVal.nullv] ⟨0, "n", "t"⟩ 0 rfl (by decide)
      (by decide)).1,
   (c10_truthiness_guard [SlideVal.nullv] ⟨0, "n", "t"⟩ 0 rfl (by decide)
      (by decide)).2.1⟩

/-- C1 counterexample: the claim states that on any enhancement failure the
returned document equals the stage-1 document plus id/timestamp/topic, with
no slide field changed.  But a parsed enhancement of malformed shape whose
`enhancedSlides` array holds a valid entry followed by `null` throws midway
through the merge loop: the error is swallowed (the request still succeeds
with status 200), yet the already-applied in-place update to slide 0
persists, so the returned document differs from the stage-1 document plus
metadata. -/
theorem c1_midloop_mutation_counterexample :
    (generateHandler (some "Topic")
        (.ok ⟨"T", "S", [SlideVal.obj ⟨"content", "A", [], "", none, none⟩],
              none, none, none, none⟩)
        (.parsed (some [EntryVal.objE ⟨0, "better notes", "fade"⟩,
                        EntryVal.nullish]) none)
        "id-1" "ts-1").status = 200 ∧
    (generateHandler (some "Topic")
        (.ok ⟨"T", "S", [SlideVal.obj ⟨"content", "A", [], "", none, none⟩],
              none, none, none, none⟩)
        (.parsed (some [EntryVal.objE ⟨0, "better notes", "fade"⟩,
                        EntryVal.nullish]) none)
        "id-1" "ts-1").doc ≠
      some ⟨"T", "S", [SlideVal.obj ⟨"content", "A", [], "", none, none⟩],
            none, some "id-1", some "ts-1", some "Topic"⟩ := by
  decide

/-- C1 (amended): a failure in the enhancement stage never changes the
success/failure outcome of the overall generate request (the response has
status 200 whenever stage 1 succeeded and the topic is non-blank).  If the
failure is a network/parse error, or a malformed shape detected before any
slide entry is applied (`enhancedSlides` absent or not an array), the
returned document equals the stage-1 document with only id, createdAt and
topic added.  (A malformed entry encountered part-way through the
`enhancedSlides` array is also swallowed, but in-place updates already made
to earlier addressed slides remain — see the counterexample.) -/
theorem c1_enhancement_best_effort (p : Presentation) (t : String)
    (enh : EnhOutcome) (newId createdAt : String)
    (htopic : jsTrim t.toList ≠ []) :
    (generateHandler (some t) (.ok p) enh newId createdAt).status = 200 ∧
    (generateHandler (some t) (.ok p) enh newId createdAt).error = none ∧
    (generateHandler (some t) (.ok p) enh newId createdAt).calledUpstream = true ∧
    ((enh = .callFailure ∨ ∃ kt, enh = .parsed none kt) →
      (generateHandler (some t) (.ok p) enh newId createdAt).doc =
        some { p with id := some newId, createdAt := some createdAt,
                      topic := some t }) := by
  have hgen0 : generateHandler (some t) (.ok p) enh newId createdAt =
      (if jsTrim t.toList = [] then
        ({ status := 400, error := some "Please provide a topic", doc := none,
           calledUpstream := false } : GenResponse)
      else
        { status := 200, error := none
          doc := some { enhancePresentation p enh with
                          id := some newId, createdAt := some createdAt,
                          topic := some t }
          calledUpstream := true }) := rfl
  have hgen : generateHandler (some t) (.ok p) enh newId createdAt =
      { status := 200, error := none
        doc := some { enhancePresentation p enh with
                        id := some newId, createdAt := some createdAt,
                        topic := some t }
        calledUpstream := true } := by
    rw [hgen0, if_neg htopic]
  refine ⟨by rw [hgen], by rw [hgen], by rw [hgen], ?_⟩
  intro hfail
  rw [hgen]
  have hpe : enhancePresentation p enh = p := by
    rcases hfail with rfl | ⟨kt, rfl⟩ <;> rfl
  rw [hpe]

theorem c1_enhancement_best_effort_witness :
    (generateHandler (some "Topic")
        (.ok ⟨"T", "S", [], none, none, none, none⟩) .callFailure
        "id-1" "ts-1").status = 200 ∧
    (generateHandler (some "Topic")
        (.ok ⟨"T", "S", [], none, none, none, none⟩) .callFailure
        "id-1" "ts-1").doc =
      some ⟨"T", "S", [], none, some "id-1", some "ts-1", some "Topic"⟩ :=
  ⟨(c1_enhancement_best_effort ⟨"T", "S", [], none, none, none, none⟩ "Topic"
      .callFailure "id-1" "ts-1" (by decide)).1,
   (c1_enhancement_best_effort ⟨"T", "S", [], none, none, none, none⟩ "Topic"
      .callFailure "id-1" "ts-1" (by decide)).2.2.2 (Or.inl rfl)⟩

end Slides
